import Mathlib

/-!
Shallow embedding of the transcription/summarization pipeline in
`src/process.py` (repository `video_transcription_summary`), together with
theorems settling the specification claims about it.

Conventions of the embedding:
* Python floats are modelled as exact rationals (`ℚ`); numeric literals such
  as `0.66` are taken at their decimal value `66/100`.
* Progress callbacks are modelled by the list of `(percent, message)` events
  a run passes to the callback, in order.
* File-system effects are modelled by explicit state records threaded
  through the translated control flow; raising an exception is modelled by
  an `Except` result, with the state at raise time preserved.
* External collaborators (yt-dlp hooks, ffmpeg, whisper, the OpenAI client)
  are parameters of the definitions: their outcomes are inputs, and the
  definitions translate exactly what `process.py` does with them.
-/

namespace VTS

/-! ## Segmentation plan (process.py, transcribe_media lines 391-398)

```
duration = _get_media_duration(audio_path)
if duration <= 900:
    segments_dir = None
    segments = [Path(audio_path)]
else:
    segment_count = math.ceil(duration / 900)
    segment_time = duration / segment_count
    segments_dir, segments = _split_audio(audio_path, segment_time)
```
-/

/-- Result of the duration-based segmentation decision: whether a temporary
segment directory is created (`_split_audio` is called), the planned number
of segments, and the planned per-segment duration (`None` on the
single-segment path, where no `segment_time` is computed). -/
structure SegPlan where
  tmpDirCreated : Bool
  segmentCount : ℕ
  segmentTime : Option ℚ
deriving DecidableEq

/-- Translation of the segmentation decision of `transcribe_media`:
`duration <= 900` keeps the whole file as the single segment with no
temporary directory; otherwise `segment_count = ceil(duration / 900)` and
`segment_time = duration / segment_count`. -/
def transcribe_media_segmentation (duration : ℚ) : SegPlan :=
  if duration ≤ 900 then
    ⟨false, 1, none⟩
  else
    let segment_count : ℤ := ⌈duration / 900⌉
    ⟨true, segment_count.toNat, some (duration / (segment_count : ℚ))⟩

theorem two_le_ceil_of_gt {d : ℚ} (h : 900 < d) : 2 ≤ ⌈d / 900⌉ := by
  have h1 : (1 : ℚ) < d / 900 := by
    rw [lt_div_iff₀ (by norm_num : (0:ℚ) < 900)]
    linarith
  have := Int.lt_ceil.mpr (by exact_mod_cast h1 : ((1 : ℤ) : ℚ) < d / 900)
  omega

/-- C1: for every duration `d`, the pipeline plans exactly one segment with
no temporary directory iff `d ≤ 900`; otherwise the planned count is
`⌈d / 900⌉` and the planned segment time is `d / ⌈d / 900⌉`, which is at
most `900`. -/
theorem C1_segmentation_spec (d : ℚ) :
    (((transcribe_media_segmentation d).segmentCount = 1 ∧
        (transcribe_media_segmentation d).tmpDirCreated = false) ↔ d ≤ 900)
    ∧ (900 < d →
        (transcribe_media_segmentation d).segmentCount = (⌈d / 900⌉).toNat
        ∧ (transcribe_media_segmentation d).segmentTime
            = some (d / ((⌈d / 900⌉ : ℤ) : ℚ))
        ∧ ∀ t, (transcribe_media_segmentation d).segmentTime = some t →
            t ≤ 900) := by
  by_cases h : d ≤ 900
  · refine ⟨?_, ?_⟩
    · simp [transcribe_media_segmentation, h]
    · intro hgt; exact absurd h (not_le.mpr hgt)
  · have hgt : 900 < d := not_le.mp h
    have hceil : 2 ≤ ⌈d / 900⌉ := two_le_ceil_of_gt hgt
    have hplan : transcribe_media_segmentation d
        = ⟨true, (⌈d / 900⌉).toNat, some (d / ((⌈d / 900⌉ : ℤ) : ℚ))⟩ := by
      simp [transcribe_media_segmentation, h]
    refine ⟨?_, fun _ => ⟨?_, ?_, ?_⟩⟩
    · rw [hplan]
      simp [h]
    · rw [hplan]
    · rw [hplan]
    · intro t ht
      rw [hplan] at ht
      simp only [Option.some.injEq] at ht
      subst ht
      have hpos : (0 : ℚ) < ((⌈d / 900⌉ : ℤ) : ℚ) := by
        exact_mod_cast lt_of_lt_of_le (by norm_num : (0:ℤ) < 2) hceil
      rw [div_le_iff₀ hpos]
      have hle : d / 900 ≤ ((⌈d / 900⌉ : ℤ) : ℚ) := Int.le_ceil _
      calc d = (d / 900) * 900 := by field_simp
        _ ≤ ((⌈d / 900⌉ : ℤ) : ℚ) * 900 :=
            mul_le_mul_of_nonneg_right hle (by norm_num)
        _ = 900 * ((⌈d / 900⌉ : ℤ) : ℚ) := by ring

/-- C1 witness: at duration `1800` the plan is 2 segments of `900` seconds,
and at duration `600` it is a single segment with no temporary directory. -/
theorem C1_segmentation_witness :
    (transcribe_media_segmentation 1800).segmentCount = 2
    ∧ (transcribe_media_segmentation 1800).segmentTime = some 900
    ∧ ∀ t, (transcribe_media_segmentation 1800).segmentTime = some t →
        t ≤ 900 := by
  have hceil : (⌈(1800 : ℚ) / 900⌉ : ℤ) = 2 := by
    norm_num
  have h := (C1_segmentation_spec 1800).2 (by norm_num)
  refine ⟨?_, ?_, h.2.2⟩
  · rw [h.1, hceil]; rfl
  · rw [h.2.1, hceil]; norm_num

/-! ## Progress events

A progress event is a percent together with the optional status message
passed to the observer callback. -/

/-- One `(percent, message)` pair passed to a progress callback. -/
structure Event where
  percent : ℚ
  message : Option String
deriving DecidableEq

/-! ## Download progress (process.py, download_to_audio lines 149-200)

The yt-dlp hook receives dictionaries; the fields that influence emitted
percents are `status`, `total_bytes` / `total_bytes_estimate` and
`downloaded_bytes`.  A hook invocation is modelled by `DlHook`; a
`downloading` event carries `none` when neither total field is set
(Python: `total = d.get("total_bytes") or d.get("total_bytes_estimate")`
is falsy, so nothing is emitted). -/

/-- One invocation of the yt-dlp progress hook, reduced to the fields that
determine the emitted percent. -/
inductive DlHook
  | downloading (totalBytes : Option ℕ) (downloadedBytes : ℕ)
  | finished
deriving DecidableEq

/-- The percent (if any) that the hook in `download_to_audio` passes to the
job callback for one hook invocation: `downloaded / total * 50` while
downloading (only when a nonzero total is known), and `50` on `finished`. -/
def hookPercent : DlHook → Option ℚ
  | DlHook.downloading none _ => none
  | DlHook.downloading (some t) dl =>
      if t = 0 then none else some ((dl : ℚ) / (t : ℚ) * 50)
  | DlHook.finished => some 50

/-- The percents `download_to_audio` passes to its callback, in order: `0`
at entry, the hook percents, then `100` after audio conversion. -/
def downloadToAudioPercents (hooks : List DlHook) : List ℚ :=
  0 :: (hooks.filterMap hookPercent ++ [100])

/-! ## Stage and segment composition (transcribe_media lines 372-412) -/

/-- The scaling `transcribe_media` applies to the download stage's local
percent for a URL source: `progress_callback(p * 0.66, status)`. -/
def urlDownloadScale (p : ℚ) : ℚ := p * (66 / 100)

/-- The percent reported after completing segment `idx` (1-indexed) of
`total`: `start_progress + (idx / total_segments) * (100 - start_progress)`
(transcribe_media line 409). -/
def segmentProgress (startProgress : ℚ) (idx total : ℕ) : ℚ :=
  startProgress + ((idx : ℚ) / (total : ℚ)) * (100 - startProgress)

/-- The per-segment percents of the transcription loop over `n` segments,
with divisor `total` (`total_segments = len(segments) or 1`). -/
def segmentPercents (startProgress : ℚ) (n total : ℕ) : List ℚ :=
  (List.range n).map (fun i => segmentProgress startProgress (i + 1) total)

/-- `total_segments = len(segments) or 1` (transcribe_media line 403). -/
def totalSegments (n : ℕ) : ℕ := if n = 0 then 1 else n

/-- The `input_type` argument of `transcribe_media`: `"audio"` or `"url"`
(the only values that do not raise `ValueError`). -/
inductive InputType
  | audio
  | url
deriving DecidableEq

/-- The full percent sequence a successful `transcribe_media` run passes to
its callback, as a function of the input type, the download hook
invocations (URL case only) and the number `n` of audio segments:
* audio source: `0`, the segment percents from `start_progress = 0`, `100`;
* URL source: the `download_to_audio` percents each scaled by `0.66`, then
  `66` at transcription start, the segment percents from
  `start_progress = 66`, and the final `100`. -/
def transcribeMediaPercents (input : InputType) (hooks : List DlHook)
    (n : ℕ) : List ℚ :=
  match input with
  | InputType.audio =>
      0 :: (segmentPercents 0 n (totalSegments n) ++ [100])
  | InputType.url =>
      (downloadToAudioPercents hooks).map urlDownloadScale
        ++ 66 :: (segmentPercents 66 n (totalSegments n) ++ [100])

/-! ### Monotonicity helpers -/

theorem segmentProgress_mono (s : ℚ) (hs : s ≤ 100) (T : ℕ) :
    ∀ i j : ℕ, i ≤ j → segmentProgress s i T ≤ segmentProgress s j T := by
  intro i j hij
  unfold segmentProgress
  rcases Nat.eq_zero_or_pos T with hT | hT
  · simp [hT]
  · have hTQ : (0 : ℚ) < (T : ℚ) := by exact_mod_cast hT
    have hdiv : (i : ℚ) / T ≤ (j : ℚ) / T := by
      apply div_le_div_of_nonneg_right ?_ hTQ.le
      · exact_mod_cast hij
    have := mul_le_mul_of_nonneg_right hdiv (by linarith : (0:ℚ) ≤ 100 - s)
    linarith

theorem segmentProgress_ge (s : ℚ) (hs : s ≤ 100) (T i : ℕ) :
    s ≤ segmentProgress s i T := by
  unfold segmentProgress
  have h1 : (0 : ℚ) ≤ (i : ℚ) / (T : ℚ) := by positivity
  nlinarith

theorem segmentProgress_le (s : ℚ) (hs : s ≤ 100) (T i : ℕ) (hi : i ≤ T) :
    segmentProgress s i T ≤ 100 := by
  unfold segmentProgress
  rcases Nat.eq_zero_or_pos T with hT | hT
  · have hi0 : i = 0 := by omega
    simp [hT, hi0]; linarith
  · have hTQ : (0 : ℚ) < (T : ℚ) := by exact_mod_cast hT
    have hdiv : (i : ℚ) / T ≤ 1 := by
      rw [div_le_one hTQ]; exact_mod_cast hi
    nlinarith

theorem chain_le_map_range (f : ℕ → ℚ) (hf : ∀ i j, i ≤ j → f i ≤ f j)
    (n : ℕ) : List.Chain' (· ≤ ·) ((List.range n).map f) := by
  apply List.Pairwise.chain'
  rw [List.pairwise_map]
  exact (List.pairwise_lt_range n).imp (fun h => hf _ _ (le_of_lt h))

theorem chain_segmentPercents (s : ℚ) (hs : s ≤ 100) (n T : ℕ) :
    List.Chain' (· ≤ ·) (segmentPercents s n T) :=
  chain_le_map_range _
    (fun i j hij => segmentProgress_mono s hs T (i+1) (j+1)
      (Nat.succ_le_succ hij)) n

theorem chain_le_append_of_bound {l₁ l₂ : List ℚ} (c : ℚ)
    (h₁ : List.Chain' (· ≤ ·) l₁) (h₂ : List.Chain' (· ≤ ·) l₂)
    (hb₁ : ∀ x ∈ l₁, x ≤ c) (hb₂ : ∀ y ∈ l₂, c ≤ y) :
    List.Chain' (· ≤ ·) (l₁ ++ l₂) := by
  refine List.chain'_append.2 ⟨h₁, h₂, ?_⟩
  intro x hx y hy
  have hx' : x ∈ l₁ := List.mem_of_mem_getLast? hx
  have hy' : y ∈ l₂ := List.mem_of_mem_head? hy
  exact le_trans (hb₁ x hx') (hb₂ y hy')

/-- Well-formedness of one yt-dlp hook invocation: the reported downloaded
byte count never exceeds the reported total.  This is the contract of the
external downloader, not of `process.py`. -/
def hookWellFormed (hk : DlHook) : Prop :=
  match hk with
  | DlHook.downloading (some t) dl => dl ≤ t
  | _ => True

instance (hk : DlHook) : Decidable (hookWellFormed hk) :=
  match hk with
  | DlHook.downloading (some t) dl => inferInstanceAs (Decidable (t ≥ dl))
  | DlHook.downloading none _ => inferInstanceAs (Decidable True)
  | DlHook.finished => inferInstanceAs (Decidable True)

theorem hookPercent_bounds (hooks : List DlHook)
    (hwf : ∀ hk ∈ hooks, hookWellFormed hk) :
    ∀ p ∈ hooks.filterMap hookPercent, 0 ≤ p ∧ p ≤ 50 := by
  intro p hp
  rw [List.mem_filterMap] at hp
  obtain ⟨hk, hmem, hph⟩ := hp
  cases hk with
  | finished =>
      simp only [hookPercent, Option.some.injEq] at hph
      subst hph; norm_num
  | downloading tb dl =>
      cases tb with
      | none => simp [hookPercent] at hph
      | some t =>
          by_cases ht : t = 0
          · simp [hookPercent, ht] at hph
          · simp only [hookPercent, if_neg ht, Option.some.injEq] at hph
            subst hph
            have hdl : dl ≤ t := hwf _ hmem
            have htQ : (0 : ℚ) < (t : ℚ) := by
              exact_mod_cast Nat.pos_of_ne_zero ht
            constructor
            · positivity
            · have h1 : (dl : ℚ) / t ≤ 1 := by
                rw [div_le_one htQ]; exact_mod_cast hdl
              nlinarith

/-- Membership in `segmentPercents` comes from a 1-indexed segment index. -/
theorem mem_segmentPercents {s x : ℚ} {n T : ℕ}
    (hx : x ∈ segmentPercents s n T) :
    ∃ i, 1 ≤ i ∧ i ≤ n ∧ x = segmentProgress s i T := by
  unfold segmentPercents at hx
  rw [List.mem_map] at hx
  obtain ⟨i, hi, rfl⟩ := hx
  rw [List.mem_range] at hi
  exact ⟨i + 1, by omega, by omega, rfl⟩

theorem segmentPercents_bounds {s : ℚ} (hs : s ≤ 100) (n : ℕ) :
    ∀ x ∈ segmentPercents s n (totalSegments n), s ≤ x ∧ x ≤ 100 := by
  intro x hx
  obtain ⟨i, hi1, hin, rfl⟩ := mem_segmentPercents hx
  have hiT : i ≤ totalSegments n := by
    unfold totalSegments; split <;> omega
  exact ⟨segmentProgress_ge s hs _ _, segmentProgress_le s hs _ _ hiT⟩

/-- The chain property of one transcription block: the start percent, the
per-segment percents, and the final `100`. -/
theorem chain_segBlock (s : ℚ) (hs : s ≤ 100) (n : ℕ) :
    List.Chain' (· ≤ ·)
      (s :: (segmentPercents s n (totalSegments n) ++ [100])) := by
  have hseg := segmentPercents_bounds hs n
  have h2 : List.Chain' (· ≤ ·)
      (segmentPercents s n (totalSegments n) ++ [100]) := by
    apply chain_le_append_of_bound 100
      (chain_segmentPercents s hs n _) (List.chain'_singleton _)
    · intro x hx; exact (hseg x hx).2
    · intro y hy; rcases List.mem_singleton.1 hy with rfl; exact le_refl _
  show List.Chain' (· ≤ ·)
      ([s] ++ (segmentPercents s n (totalSegments n) ++ [100]))
  apply chain_le_append_of_bound s (List.chain'_singleton _) h2
  · intro x hx; rcases List.mem_singleton.1 hx with rfl; exact le_refl _
  · intro y hy
    rcases List.mem_append.1 hy with hy | hy
    · exact (hseg y hy).1
    · rcases List.mem_singleton.1 hy with rfl; linarith

theorem downloadToAudioPercents_chain (hooks : List DlHook)
    (hwf : ∀ hk ∈ hooks, hookWellFormed hk)
    (hchain : List.Chain' (· ≤ ·) (hooks.filterMap hookPercent)) :
    List.Chain' (· ≤ ·) (downloadToAudioPercents hooks) := by
  have hb := hookPercent_bounds hooks hwf
  show List.Chain' (· ≤ ·)
      ([0] ++ (hooks.filterMap hookPercent ++ [100]))
  apply chain_le_append_of_bound 0 (List.chain'_singleton _)
  · apply chain_le_append_of_bound 100 hchain (List.chain'_singleton _)
    · intro x hx; linarith [(hb x hx).2]
    · intro y hy; rcases List.mem_singleton.1 hy with rfl; exact le_refl _
  · intro x hx; rcases List.mem_singleton.1 hx with rfl; exact le_refl _
  · intro y hy
    rcases List.mem_append.1 hy with hy | hy
    · exact (hb y hy).1
    · rcases List.mem_singleton.1 hy with rfl; norm_num

theorem downloadToAudioPercents_bounds (hooks : List DlHook)
    (hwf : ∀ hk ∈ hooks, hookWellFormed hk) :
    ∀ y ∈ downloadToAudioPercents hooks, 0 ≤ y ∧ y ≤ 100 := by
  have hb := hookPercent_bounds hooks hwf
  intro y hy
  rcases List.mem_cons.1 hy with rfl | hy'
  · norm_num
  · rcases List.mem_append.1 hy' with hy'' | hy''
    · obtain ⟨h1, h2⟩ := hb y hy''
      exact ⟨h1, by linarith⟩
    · rcases List.mem_singleton.1 hy'' with rfl; norm_num

/-- C2: for a single `transcribe_media` job whose downloader reports
well-formed, non-decreasing hook percents, the full sequence of percents
passed to the callback is non-decreasing (as is every prefix of it, i.e.
the sequence at any point of the job's lifetime), and the final percent of
a successful job is exactly `100`. -/
theorem C2_job_progress (input : InputType) (hooks : List DlHook) (n : ℕ)
    (hwf : ∀ hk ∈ hooks, hookWellFormed hk)
    (hchain : List.Chain' (· ≤ ·) (hooks.filterMap hookPercent)) :
    List.Chain' (· ≤ ·) (transcribeMediaPercents input hooks n)
    ∧ (transcribeMediaPercents input hooks n).getLast? = some 100
    ∧ ∀ k, List.Chain' (· ≤ ·)
        ((transcribeMediaPercents input hooks n).take k) := by
  have hdlc := downloadToAudioPercents_chain hooks hwf hchain
  have hdlb := downloadToAudioPercents_bounds hooks hwf
  have hmain : List.Chain' (· ≤ ·) (transcribeMediaPercents input hooks n) := by
    cases input with
    | audio => exact chain_segBlock 0 (by norm_num) n
    | url =>
        show List.Chain' (· ≤ ·)
          ((downloadToAudioPercents hooks).map urlDownloadScale
            ++ 66 :: (segmentPercents 66 n (totalSegments n) ++ [100]))
        apply chain_le_append_of_bound 66
        · rw [List.chain'_map]
          refine hdlc.imp (fun a b hab => ?_)
          unfold urlDownloadScale
          exact mul_le_mul_of_nonneg_right hab (by norm_num)
        · exact chain_segBlock 66 (by norm_num) n
        · intro x hx
          rw [List.mem_map] at hx
          obtain ⟨y, hy, rfl⟩ := hx
          unfold urlDownloadScale
          have := (hdlb y hy).2
          linarith
        · intro y hy
          rcases List.mem_cons.1 hy with rfl | hy'
          · exact le_refl _
          · rcases List.mem_append.1 hy' with hy'' | hy''
            · exact (segmentPercents_bounds (by norm_num) n y hy'').1
            · rcases List.mem_singleton.1 hy'' with rfl; norm_num
  have hlast : (transcribeMediaPercents input hooks n).getLast? = some 100 := by
    cases input with
    | audio =>
        show (0 :: (segmentPercents 0 n (totalSegments n) ++ [100])).getLast?
          = some 100
        rw [← List.cons_append]
        exact List.getLast?_concat _
    | url =>
        show ((downloadToAudioPercents hooks).map urlDownloadScale
            ++ (66 : ℚ) :: (segmentPercents 66 n (totalSegments n)
                ++ [100])).getLast?
          = some (100 : ℚ)
        rw [← List.cons_append, ← List.append_assoc]
        exact List.getLast?_concat _
  exact ⟨hmain, hlast, fun k => hmain.take k⟩

/-- C2 witness: a URL job with one partial-download hook event (100 of 200
bytes), the finished event, and two transcription segments. -/
theorem C2_job_progress_witness :
    List.Chain' (· ≤ ·)
      (transcribeMediaPercents InputType.url
        [DlHook.downloading (some 200) 100, DlHook.finished] 2)
    ∧ (transcribeMediaPercents InputType.url
        [DlHook.downloading (some 200) 100, DlHook.finished] 2).getLast?
      = some 100 := by
  have hwf : ∀ hk ∈ [DlHook.downloading (some 200) 100, DlHook.finished],
      hookWellFormed hk := by decide
  have hch : List.Chain' (· ≤ ·)
      (([DlHook.downloading (some 200) 100,
         DlHook.finished]).filterMap hookPercent) := by
    norm_num [hookPercent, List.filterMap_cons, List.chain'_cons,
      List.chain'_singleton]
  have h := C2_job_progress InputType.url
      [DlHook.downloading (some 200) 100, DlHook.finished] 2 hwf hch
  exact ⟨h.1, h.2.1⟩

/-- C3: the download stage of a URL job maps local percent `p ∈ [0,100]` to
`p * 0.66`, staying inside `[0,66]`; segment completion maps into
`[start_progress, 100]`, so transcription owns `[66,100]` for a URL job and
all of `[0,100]` for a local-audio job (`start_progress = 0`); completing
segment 2 of 4 from start 66 reports exactly 83. -/
theorem C3_stage_composition :
    (∀ p : ℚ, 0 ≤ p → p ≤ 100 →
        urlDownloadScale p = p * (66 / 100)
        ∧ 0 ≤ urlDownloadScale p ∧ urlDownloadScale p ≤ 66)
    ∧ (∀ n i : ℕ, 1 ≤ i → i ≤ n →
        0 ≤ segmentProgress 0 i n ∧ segmentProgress 0 i n ≤ 100)
    ∧ (∀ n i : ℕ, 1 ≤ i → i ≤ n →
        66 ≤ segmentProgress 66 i n ∧ segmentProgress 66 i n ≤ 100)
    ∧ segmentProgress 66 2 4 = 83 := by
  refine ⟨?_, ?_, ?_, ?_⟩
  · intro p hp0 hp1
    refine ⟨rfl, ?_, ?_⟩
    · unfold urlDownloadScale; positivity
    · unfold urlDownloadScale; linarith
  · intro n i h1 h2
    exact ⟨segmentProgress_ge 0 (by norm_num) n i,
      segmentProgress_le 0 (by norm_num) n i h2⟩
  · intro n i h1 h2
    exact ⟨segmentProgress_ge 66 (by norm_num) n i,
      segmentProgress_le 66 (by norm_num) n i h2⟩
  · unfold segmentProgress; norm_num

/-- C3 witness: download local percent 50 maps to 33, and segment 2 of 4
from start 66 maps to 83. -/
theorem C3_stage_composition_witness :
    urlDownloadScale 50 = 33 ∧ urlDownloadScale 50 ≤ 66
    ∧ 66 ≤ segmentProgress 66 2 4 ∧ segmentProgress 66 2 4 = 83 := by
  have h1 := C3_stage_composition.1 50 (by norm_num) (by norm_num)
  have h2 := C3_stage_composition.2.2.1 4 2 (by norm_num) (by norm_num)
  refine ⟨?_, h1.2.2, h2.1, C3_stage_composition.2.2.2⟩
  unfold urlDownloadScale; norm_num

/-! ## Batch composition (process.py, transcribe_batch lines 429-471) -/

/-- `base = (index - 1) * 100 / total` with `index` the 1-based position
(transcribe_batch line 449). -/
def batchBase (index total : ℕ) : ℚ := ((index - 1 : ℕ) : ℚ) * 100 / total

/-- `overall = base + p / total` (transcribe_batch line 453). -/
def batchOverall (index total : ℕ) (p : ℚ) : ℚ :=
  batchBase index total + p / total

/-- `status = f"{index}/{total} {status}"` applied only when the incoming
status is truthy (transcribe_batch lines 454-455). -/
def batchMessage (index total : ℕ) : Option String → Option String
  | none => none
  | some m =>
      if m = "" then some m
      else some (toString index ++ "/" ++ toString total ++ " " ++ m)

/-- Translation of `transcribe_batch`, parametrized by the observable
behaviour `runItem index src = (transcript_path, events)` of the
`transcribe_media` call made for each source.  `total = len(sources) or 1`;
each item's events are rescaled through `batchOverall`, and a final
`(100, "Transcription completed")` event is emitted unconditionally. -/
def transcribe_batch (runItem : ℕ → String → String × List Event)
    (sources : List String) : List String × List Event :=
  let total : ℕ := if sources.length = 0 then 1 else sources.length
  let runs := (sources.enumFrom 1).map (fun ix =>
    let r := runItem ix.1 ix.2
    (r.1, r.2.map (fun e =>
      ⟨batchOverall ix.1 total e.percent, batchMessage ix.1 total e.message⟩)))
  (runs.map Prod.fst,
    (runs.map Prod.snd).flatten ++ [⟨100, some "Transcription completed"⟩])

/-- C4: the job at 0-indexed position `k` of `total` reporting local
percent `p ∈ [0,100]` is mapped to `k*100/total + p/total`, which lies in
the job's sub-range `[k*100/total, (k+1)*100/total]`; for `total = 3`,
`k = 1`, `p = 50` the overall percent is exactly `50`. -/
theorem C4_batch_composition (total k : ℕ) (p : ℚ)
    (hk : k < total) (hp0 : 0 ≤ p) (hp1 : p ≤ 100) :
    batchOverall (k + 1) total p = (k : ℚ) * 100 / total + p / total
    ∧ (k : ℚ) * 100 / total ≤ batchOverall (k + 1) total p
    ∧ batchOverall (k + 1) total p ≤ ((k : ℚ) + 1) * 100 / total
    ∧ batchOverall 2 3 50 = 50 := by
  have htot : (0 : ℚ) < (total : ℚ) := by
    have : 0 < total := by omega
    exact_mod_cast this
  have heq : batchOverall (k + 1) total p
      = (k : ℚ) * 100 / total + p / total := by
    simp [batchOverall, batchBase]
  refine ⟨heq, ?_, ?_, ?_⟩
  · rw [heq]
    have : 0 ≤ p / (total : ℚ) := by positivity
    linarith
  · rw [heq, div_add_div_same]
    apply div_le_div_of_nonneg_right ?_ htot.le
    linarith
  · norm_num [batchOverall, batchBase]

/-- C4 witness: `total = 3`, job index `k = 1`, local percent `50` maps to
exactly `50`, inside the job's sub-range. -/
theorem C4_batch_composition_witness :
    batchOverall 2 3 50 = 50
    ∧ (1 : ℚ) * 100 / 3 ≤ batchOverall 2 3 50
    ∧ batchOverall 2 3 50 ≤ ((1 : ℚ) + 1) * 100 / 3 := by
  have h := C4_batch_composition 3 1 50 (by norm_num) (by norm_num)
      (by norm_num)
  refine ⟨h.2.2.2, ?_, ?_⟩
  · have := h.2.1; exact_mod_cast this
  · have := h.2.2.1; exact_mod_cast this

/-- C9: for an empty sources list, `transcribe_batch` returns the empty
list of transcripts (no division by zero: the divisor is
`len(sources) or 1` and the loop body never runs) and still emits the
single final event `(100, "Transcription completed")`. -/
theorem C9_empty_batch (runItem : ℕ → String → String × List Event) :
    transcribe_batch runItem []
      = ([], [⟨100, some "Transcription completed"⟩]) := rfl

/-! ## Summarization (process.py, summarize_transcript lines 474-507)

The GUI (`gui.py`, `start_summary`/`task`, lines 219-256) calls
`summarize_transcript` with `prompt_var.get()` unconditionally: neither the
GUI nor `summarize_transcript` tests whether the prompt is empty. -/

/-- Outcome of the `client.chat.completions.create` call. -/
inductive ChatOutcome
  | ok (text : String)
  | apiError (msg : String)
deriving DecidableEq

/-- Observable behaviour of one `summarize_transcript` call:
`systemPromptSent` is the system-message content of the chat request
(`none` would mean the summarizer was never invoked), `filesWritten` the
`(name, content)` pairs written (the transcript file is never written),
`events` the callback events, `ret` the returned path or re-raised
error. -/
structure SummarizeRun where
  systemPromptSent : Option String
  modelSent : Option String
  filesWritten : List (String × String)
  events : List Event
  ret : Except String String

/-- `{stem}_summary.txt` (summarize_transcript lines 496-498). -/
def summaryName (stem : String) : String := stem ++ "_summary.txt"

/-- `{stem}.txt` (transcribe_media line 418). -/
def transcriptName (stem : String) : String := stem ++ ".txt"

/-- Translation of `summarize_transcript`: emit a start event, always call
the chat API with the given prompt as the system message; on success write
`{stem}_summary.txt` (stripped text plus a newline), emit the completion
event and return the summary path; on `OpenAIError` emit a final
`(100, error text)` event and re-raise. -/
def summarize_transcript (stem gptModel prompt : String)
    (chat : ChatOutcome) : SummarizeRun :=
  let startEvent : Event := ⟨0, some (stem ++ " - Summarizing with ChatGPT...")⟩
  match chat with
  | ChatOutcome.ok text =>
      ⟨some prompt, some gptModel,
       [(summaryName stem, text.trim ++ "\n")],
       [startEvent, ⟨100, some (stem ++ " - Summary completed")⟩],
       Except.ok (summaryName stem)⟩
  | ChatOutcome.apiError msg =>
      ⟨some prompt, some gptModel,
       [],
       [startEvent, ⟨100, some (stem ++ " - OpenAI API error: " ++ msg)⟩],
       Except.error msg⟩

/-- C6 counterexample: with the empty prompt string the summarizer IS
invoked (a chat request with system prompt `""` is sent), a summary file is
written, and the summary path — not the transcript path — is returned. -/
theorem C6_empty_prompt_counterexample :
    (summarize_transcript "t" "gpt-3.5-turbo" "" (ChatOutcome.ok "s")).systemPromptSent
      = some ""
    ∧ (summarize_transcript "t" "gpt-3.5-turbo" "" (ChatOutcome.ok "s")).filesWritten
      ≠ []
    ∧ (summarize_transcript "t" "gpt-3.5-turbo" "" (ChatOutcome.ok "s")).ret
      = Except.ok (summaryName "t") := by
  refine ⟨rfl, ?_, rfl⟩
  simp [summarize_transcript]

/-- C6 amended: `summarize_transcript` invokes the summarizer regardless of
whether the prompt is empty, on success writes `{stem}_summary.txt` and
returns the summary path (never the transcript path as-is); no empty-prompt
guard exists in `summarize_transcript` or in the GUI caller. -/
theorem C6_empty_prompt_amended (stem gptModel text : String) :
    (summarize_transcript stem gptModel "" (ChatOutcome.ok text)).systemPromptSent
      = some ""
    ∧ (summarize_transcript stem gptModel "" (ChatOutcome.ok text)).filesWritten
      = [(summaryName stem, text.trim ++ "\n")]
    ∧ (summarize_transcript stem gptModel "" (ChatOutcome.ok text)).ret
      = Except.ok (summaryName stem) :=
  ⟨rfl, rfl, rfl⟩

/-- C8: on an upstream API error `summarize_transcript` emits the start
event and then a final `(100, "{stem} - OpenAI API error: {msg}")` event,
re-raises the same error to the caller, and writes no file at all — in
particular the already-written transcript file is untouched. -/
theorem C8_summarize_error_path (stem gptModel prompt msg : String) :
    (summarize_transcript stem gptModel prompt (ChatOutcome.apiError msg)).events
      = [⟨0, some (stem ++ " - Summarizing with ChatGPT...")⟩,
         ⟨100, some (stem ++ " - OpenAI API error: " ++ msg)⟩]
    ∧ (summarize_transcript stem gptModel prompt
        (ChatOutcome.apiError msg)).events.getLast?
      = some ⟨100, some (stem ++ " - OpenAI API error: " ++ msg)⟩
    ∧ (summarize_transcript stem gptModel prompt (ChatOutcome.apiError msg)).ret
      = Except.error msg
    ∧ (summarize_transcript stem gptModel prompt
        (ChatOutcome.apiError msg)).filesWritten
      = [] :=
  ⟨rfl, rfl, rfl, rfl⟩

/-! ## Video-to-audio conversion (process.py, convert_video_to_audio
lines 117-146) -/

/-- File-system state around `convert_video_to_audio`: whether the input
video file and the output audio file exist. -/
structure ConvertFs where
  inputExists : Bool
  outputExists : Bool
deriving DecidableEq

/-- Outcome of the ffmpeg subprocess: success (output fully written), or
failure with the given stderr text, possibly leaving an incomplete output
file behind (`leftoverOutput`) — the wrapper never removes one. -/
inductive FfmpegOutcome
  | ok
  | fail (stderrText : String) (leftoverOutput : Bool)
deriving DecidableEq

/-- Translation of `convert_video_to_audio`: on ffmpeg success the output
`{stem}.m4a` exists and the input video is deleted
(`Path(video_path).unlink(missing_ok=True)`); on ffmpeg failure a
`RuntimeError` is raised, the input is left in place, and whatever partial
output ffmpeg left is neither completed nor removed. -/
def convert_video_to_audio (stem : String) (outcome : FfmpegOutcome)
    (s : ConvertFs) : ConvertFs × Except String String :=
  match outcome with
  | FfmpegOutcome.ok =>
      (⟨false, true⟩, Except.ok (stem ++ ".m4a"))
  | FfmpegOutcome.fail stderrText leftover =>
      (⟨s.inputExists, leftover⟩,
       Except.error ("ffmpeg failed to convert video: " ++ stderrText))

/-- C7 counterexample: when ffmpeg fails after writing part of the output
file, the failed conversion leaves that partial output on disk (the code
has no cleanup of the output path on the failure branch). -/
theorem C7_convert_counterexample :
    (convert_video_to_audio "v" (FfmpegOutcome.fail "boom" true)
        ⟨true, false⟩).1.outputExists = true
    ∧ (convert_video_to_audio "v" (FfmpegOutcome.fail "boom" true)
        ⟨true, false⟩).2
      = Except.error ("ffmpeg failed to convert video: " ++ "boom") :=
  ⟨rfl, rfl⟩

/-- C7 amended: on success `convert_video_to_audio` deletes the input video
it consumed (so it is not idempotent on the same path); on failure it
raises a transcode error and does not delete the input, but it performs no
cleanup of a partial output file: the output's existence after failure is
whatever the ffmpeg subprocess left behind. -/
theorem C7_convert_amended (stem stderrText : String) (leftover : Bool)
    (s : ConvertFs) :
    convert_video_to_audio stem FfmpegOutcome.ok s
      = (⟨false, true⟩, Except.ok (stem ++ ".m4a"))
    ∧ (convert_video_to_audio stem (FfmpegOutcome.fail stderrText leftover)
        s).1.inputExists = s.inputExists
    ∧ (convert_video_to_audio stem (FfmpegOutcome.fail stderrText leftover)
        s).1.outputExists = leftover
    ∧ (convert_video_to_audio stem (FfmpegOutcome.fail stderrText leftover)
        s).2
      = Except.error ("ffmpeg failed to convert video: " ++ stderrText) :=
  ⟨rfl, rfl, rfl, rfl⟩

/-! ## Temporary-directory lifecycle and language resolution
(process.py, `_split_audio` lines 315-347 and `transcribe_media`
lines 391-415)

Control flow of `transcribe_media` after the audio file is available:

```
duration = _get_media_duration(audio_path)
if duration <= 900: segments_dir = None; segments = [audio_path]
else: ...; segments_dir, segments = _split_audio(audio_path, segment_time)
whisper_model = whisper.load_model(model)
lang_code = LANGUAGE_CODES.get(language.lower(), None)
try:
    for segment in segments: whisper_model.transcribe(..., language=lang_code)
finally:
    if segments_dir is not None: shutil.rmtree(segments_dir)
```

`_split_audio` calls `tempfile.mkdtemp` BEFORE running ffmpeg and does not
remove the directory when ffmpeg fails; `whisper.load_model` sits between
`_split_audio` and the `try`, so neither a split failure nor a model-load
failure reaches the `finally` cleanup. -/

/-- Whether the temporary segment directory is currently on disk. -/
structure FsState where
  tmpLive : Bool
deriving DecidableEq

/-- The error raised by a failing stage of `transcribe_media`. -/
inductive MediaError
  | transcodeError
  | modelLoadError
  | transcriptionError
deriving DecidableEq

/-- Translation of `_split_audio`: `mkdtemp` creates the temporary
directory first; if ffmpeg then fails, the exception propagates with the
directory still on disk (no cleanup inside `_split_audio`). -/
def split_audio (ffmpegOk : Bool) : FsState × Except MediaError Unit :=
  (⟨true⟩,
   if ffmpegOk then Except.ok () else Except.error MediaError.transcodeError)

/-- `LANGUAGE_CODES` (process.py lines 70-75). -/
def LANGUAGE_CODES : List (String × String) :=
  [("english", "en"), ("中文", "zh"), ("日本語", "ja"), ("deutsch", "de")]

/-- `str.lower()`: lowercasing of each character (the effect of
`String.toLower`, written as a structural map over the character list so
that concrete instances compute; the CJK dictionary keys have no case). -/
def pyLower (s : String) : String := ⟨s.data.map Char.toLower⟩

/-- `lang_code = LANGUAGE_CODES.get(language.lower(), None)`
(transcribe_media line 401). -/
def lang_code (language : String) : Option String :=
  LANGUAGE_CODES.lookup (pyLower language)

/-- Result of the segmentation/model/transcription part of
`transcribe_media`: the final file-system state, the run outcome, and
`engineLang` — `some c` when the transcription engine was invoked with
language argument `c`, `none` when it was never invoked. -/
structure MediaRunFs where
  fs : FsState
  outcome : Except MediaError Unit
  engineLang : Option (Option String)

/-- Translation of `transcribe_media` lines 391-415 as a function of the
probed duration, the language string, the number of segment files the
splitter produced, and the success of each external call (`splitOk` for
ffmpeg in `_split_audio`, `modelOk` for `whisper.load_model`, `loopOk` for
the `whisper_model.transcribe` calls). -/
def transcribe_media_run (d : ℚ) (language : String) (nSegments : ℕ)
    (splitOk modelOk loopOk : Bool) : MediaRunFs :=
  if d ≤ 900 then
    -- segments_dir = None, segments = [audio_path]
    if modelOk then
      ⟨⟨false⟩,
       if loopOk then Except.ok ()
       else Except.error MediaError.transcriptionError,
       some (lang_code language)⟩
    else ⟨⟨false⟩, Except.error MediaError.modelLoadError, none⟩
  else
    match split_audio splitOk with
    | (s1, Except.error e) => ⟨s1, Except.error e, none⟩
    | (s1, Except.ok ()) =>
      if modelOk then
        -- the try/finally around the loop removes segments_dir
        ⟨⟨false⟩,
         if loopOk ∨ nSegments = 0 then Except.ok ()
         else Except.error MediaError.transcriptionError,
         if nSegments = 0 then none else some (lang_code language)⟩
      else ⟨s1, Except.error MediaError.modelLoadError, none⟩

/-- C5 counterexample: at duration 1000 the temporary directory is created
(`mkdtemp` in `_split_audio`), yet a model-load failure — and likewise a
split failure — ends the job with the directory still on disk. -/
theorem C5_cleanup_counterexample :
    (transcribe_media_run 1000 "english" 2 true false true).fs.tmpLive = true
    ∧ (transcribe_media_run 1000 "english" 2 true false true).outcome
      = Except.error MediaError.modelLoadError
    ∧ (transcribe_media_run 1000 "english" 2 false true true).fs.tmpLive = true
    ∧ (transcribe_media_run 1000 "english" 2 false true true).outcome
      = Except.error MediaError.transcodeError := by
  have h900 : ¬ ((1000 : ℚ) ≤ 900) := by norm_num
  refine ⟨?_, ?_, ?_, ?_⟩ <;>
    simp [transcribe_media_run, split_audio, h900]

/-- C5 amended: the temporary segment directory is removed on success and
on a transcription error inside the loop (the `try`/`finally`), but it is
NOT removed on a splitting-tool error nor on a model-load error, because
`_split_audio` and `whisper.load_model` run before the `try` block. -/
theorem C5_cleanup_amended (d : ℚ) (language : String) (n : ℕ)
    (loopOk : Bool) :
    (transcribe_media_run d language n true true loopOk).fs.tmpLive = false
    ∧ (900 < d →
        (transcribe_media_run d language n false true loopOk).fs.tmpLive
          = true)
    ∧ (900 < d →
        (transcribe_media_run d language n true false loopOk).fs.tmpLive
          = true) := by
  by_cases hd : d ≤ 900
  · refine ⟨?_, ?_, ?_⟩
    · simp [transcribe_media_run, hd]
    · intro h; exact absurd hd (not_le.mpr h)
    · intro h; exact absurd hd (not_le.mpr h)
  · refine ⟨?_, fun _ => ?_, fun _ => ?_⟩ <;>
      simp [transcribe_media_run, split_audio, hd]

/-- C5 amended witness: at duration 2000 with three segments, a mid-loop
transcription failure still removes the directory, while a split failure
leaks it. -/
theorem C5_cleanup_amended_witness :
    (transcribe_media_run 2000 "english" 3 true true false).fs.tmpLive = false
    ∧ (transcribe_media_run 2000 "english" 3 false true false).fs.tmpLive
      = true := by
  have h := C5_cleanup_amended 2000 "english" 3 false
  exact ⟨h.1, h.2.1 (by norm_num)⟩

/-- C10: any language string whose lowercase form is none of the four
recognized names resolves to language code `None`: the engine is invoked
with `language=None` (auto-detection) and the run does not raise because of
the unrecognized language. -/
theorem C10_unknown_language (language : String)
    (h : ∀ p ∈ LANGUAGE_CODES, pyLower language ≠ p.1) :
    lang_code language = none
    ∧ ∀ (d : ℚ) (n : ℕ),
        (transcribe_media_run d language n true true true).outcome
          = Except.ok ()
        ∧ ∀ c, (transcribe_media_run d language n true true true).engineLang
            = some c → c = none := by
  have h1 : (pyLower language == "english") = false :=
    beq_eq_false_iff_ne.mpr (h ("english", "en") (by simp [LANGUAGE_CODES]))
  have h2 : (pyLower language == "中文") = false :=
    beq_eq_false_iff_ne.mpr (h ("中文", "zh") (by simp [LANGUAGE_CODES]))
  have h3 : (pyLower language == "日本語") = false :=
    beq_eq_false_iff_ne.mpr (h ("日本語", "ja") (by simp [LANGUAGE_CODES]))
  have h4 : (pyLower language == "deutsch") = false :=
    beq_eq_false_iff_ne.mpr (h ("deutsch", "de") (by simp [LANGUAGE_CODES]))
  have hnone : lang_code language = none := by
    simp [lang_code, LANGUAGE_CODES, List.lookup, h1, h2, h3, h4]
  refine ⟨hnone, ?_⟩
  intro d n
  by_cases hd : d ≤ 900
  · constructor
    · simp [transcribe_media_run, hd]
    · intro c hc
      simp [transcribe_media_run, hd, hnone] at hc
      exact hc.symm
  · constructor
    · simp [transcribe_media_run, split_audio, hd]
    · intro c hc
      by_cases hn : n = 0
      · simp [transcribe_media_run, split_audio, hd, hn] at hc
      · simp [transcribe_media_run, split_audio, hd, hn, hnone] at hc
        exact hc.symm

/-- C10 witness: the unrecognized language "spanish" resolves to code
`None` and a short local-audio run completes successfully with the engine
invoked in auto-detection mode. -/
theorem C10_unknown_language_witness :
    lang_code "spanish" = none
    ∧ (transcribe_media_run 600 "spanish" 1 true true true).outcome
      = Except.ok ()
    ∧ ∀ c, (transcribe_media_run 600 "spanish" 1 true true true).engineLang
        = some c → c = none := by
  have h := C10_unknown_language "spanish" (by decide)

  exact ⟨h.1, (h.2 600 1).1, (h.2 600 1).2⟩

end VTS
